import Mathlib

/-
Verification of the iSlogger structured logging library.

Shallow embedding notes:
- Go byte slices and strings are modelled as `List Char` (`Str`); the byte/rune
  distinction is immaterial to the verified properties, which only use
  append, length and substring search.
- `slog.Level` is an integer type in Go; it is modelled as `Int` with the four
  standard constants (Debug = -4, Info = 0, Warn = 4, Error = 8).
- The filesystem, the wall clock and the regexp engine are external
  collaborators of the library and are modelled abstractly: files as numeric
  handles in a world of open handles, times as integers, and a compiled regex
  replacement as an opaque `Str → Str` transformer.
- Stateful Go methods become explicit state-passing functions; `int64`
  counters are modelled as `Int` (no overflow is reachable in the verified
  statements, which only ever increment the counter finitely many times).
- Fallible operations return `Option String` errors mirroring Go `error`
  results; a Go panic possibility is modelled as an explicit Bool component.
-/

namespace ISlogger

abbrev Str := List Char

/-- Go slog.LevelDebug. -/
def levelDebug : Int := -4

/-- Go slog.LevelInfo. -/
def levelInfo : Int := 0

/-- Go slog.LevelWarn. -/
def levelWarn : Int := 4

/-- Go slog.LevelError. -/
def levelError : Int := 8

/-- Embeds Go strings.HasPrefix via char lists: hasPrefixL s pre is true when
pre is a prefix of s. -/
def hasPrefixL : Str → Str → Bool
  | _, [] => true
  | [], _ :: _ => false
  | c :: cs, p :: ps => c == p && hasPrefixL cs ps

/-- Embeds Go strings.HasSuffix: true when suf is a suffix of s. -/
def hasSuffixL (s suf : Str) : Bool :=
  hasPrefixL s.reverse suf.reverse

/-- Embeds Go strings.Contains: true when sub occurs as a contiguous substring
of s. -/
def containsL : Str → Str → Bool
  | [], sub => hasPrefixL [] sub
  | s@(_ :: rest), sub => hasPrefixL s sub || containsL rest sub

/-- The level-marker scan shared by levelFilterWriter.Write and the
LevelWarn case of bufferedWriter.shouldFlushImmediately: the serialized
record contains a WARN or ERROR marker in either the text or the JSON
encoding (buffer.go and the logger source check these four substrings in
this order). -/
def hasWarnMarker (p : Str) : Bool :=
  containsL p "level=WARN".data || containsL p "level=ERROR".data ||
    containsL p "\"level\":\"WARN\"".data || containsL p "\"level\":\"ERROR\"".data

/-! Buffered writer (buffer.go, `bufferedWriter`).  The destination
`io.Writer` is modelled inside the state: `dest` holds the bytes it has
successfully received, `destAttempts` journals every payload handed to its
Write method, and `destFail` selects whether its Write calls fail (mirroring
a failing destination stream).  The auto-flush goroutine and the mutex are
concurrency plumbing; the verified properties are about the sequential
effect of Write/Flush/Close, which the lock serializes. -/

structure BWState where
  size : Nat
  flushOnLevel : Int
  buffer : Str
  dest : Str
  destAttempts : List Str
  destFail : Bool
  hasStopChan : Bool
  stopChanClosed : Bool
  onceDone : Bool
deriving DecidableEq

/-- One Write call on the destination writer: the payload is journalled in
destAttempts; it succeeds (appending to dest) unless destFail is set. -/
def destWrite (s : BWState) (p : Str) : (Nat × Option String) × BWState :=
  let s1 := { s with destAttempts := s.destAttempts ++ [p] }
  if s1.destFail then ((0, some "destination write error"), s1)
  else ((p.length, none), { s1 with dest := s1.dest ++ p })

/-- Embeds bufferedWriter.shouldFlushImmediately (buffer.go): scans the
serialized bytes for level markers according to the configured
flush-on-level, with the same marker lists and order as the source switch. -/
def shouldFlushImmediately (flushOnLevel : Int) (p : Str) : Bool :=
  if flushOnLevel = levelDebug then true
  else if flushOnLevel = levelInfo then
    containsL p "level=INFO".data || containsL p "level=WARN".data ||
      containsL p "level=ERROR".data ||
      containsL p "\"level\":\"INFO\"".data || containsL p "\"level\":\"WARN\"".data ||
      containsL p "\"level\":\"ERROR\"".data
  else if flushOnLevel = levelWarn then
    containsL p "level=WARN".data || containsL p "level=ERROR".data ||
      containsL p "\"level\":\"WARN\"".data || containsL p "\"level\":\"ERROR\"".data
  else if flushOnLevel = levelError then
    containsL p "level=ERROR".data || containsL p "\"level\":\"ERROR\"".data
  else false

/-- Embeds bufferedWriter.flushLocked: empty buffer returns nil without
touching the destination; otherwise the whole buffer is written in one
destination Write; on error the buffer is left un-cleared, on success it is
reset. -/
def flushLocked (s : BWState) : Option String × BWState :=
  if s.buffer.length = 0 then (none, s)
  else
    let r := destWrite s s.buffer
    match r.1.2 with
    | some e => (some e, r.2)
    | none => (none, { r.2 with buffer := [] })

/-- Embeds bufferedWriter.Flush (lock acquisition elided; the model is
sequential). -/
def bwFlush (s : BWState) : Option String × BWState :=
  flushLocked s

/-- Embeds bufferedWriter.Write: pass-through when size = 0; otherwise the
payload is appended to the buffer (the in-memory append cannot fail) and a
flush is triggered when the buffer reached the capacity or the payload
carries a flush-on-level marker. -/
def bwWrite (s : BWState) (p : Str) : (Nat × Option String) × BWState :=
  if s.size = 0 then destWrite s p
  else
    let sfi := shouldFlushImmediately s.flushOnLevel p
    let s1 := { s with buffer := s.buffer ++ p }
    if s1.buffer.length ≥ s1.size ∨ sfi = true then
      ((p.length, (flushLocked s1).1), (flushLocked s1).2)
    else ((p.length, none), s1)

/-- Embeds bufferedWriter.Close: the sync.Once body closes the stop channel
(a Go close of an already-closed channel would panic — the Bool component
records that possibility), then a final Flush runs.  A constructed buffering
writer starts with hasStopChan = true, stopChanClosed = false,
onceDone = false. -/
def bwClose (s : BWState) : Bool × Option String × BWState :=
  if s.onceDone then
    let r := flushLocked s
    (false, r.1, r.2)
  else if s.hasStopChan && s.stopChanClosed then
    (true, none, s)
  else
    let s1 := { s with stopChanClosed := s.stopChanClosed || s.hasStopChan,
                       onceDone := true }
    let r := flushLocked s1
    (false, r.1, r.2)

/-! Filtering pipeline (filters.go and the filteredHandler part of
buffer.go). -/

/-- Embeds slog.Value for the purposes of the filter pipeline: either a
string-kind value or any other kind, of which only the rendered String()
form matters to the code under verification. -/
inductive GoValue where
  | str (s : Str)
  | other (repr : Str)
deriving DecidableEq

/-- Embeds slog.Value.String(). -/
def valueToString : GoValue → Str
  | .str s => s
  | .other r => r

/-- Embeds slog.Attr. -/
structure Attr where
  key : Str
  val : GoValue
deriving DecidableEq

/-- Embeds LogCondition (filters.go). -/
def LogCondition := Int → Str → List Attr → Bool

/-- Embeds FieldFilter (filters.go). -/
def FieldFilter := Str → GoValue → GoValue

/-- Embeds a compiled RegexFilter: Pattern.ReplaceAllString(·, Replacement)
is an external regexp-engine collaborator, modelled as an opaque string
transformer. -/
def RegexReplace := Str → Str

/-- Embeds RateLimit (filters.go): MaxCount, Period and the internal
counter / lastReset fields. -/
structure RateLimit where
  maxCount : Int
  period : Int
  counter : Int
  lastReset : Int
deriving DecidableEq

/-- Embeds FilterConfig (filters.go); the RateLimits map is a function from
level to the optional entry for that level. -/
structure FilterConfig where
  conditions : List LogCondition
  fieldFilters : List (Str × FieldFilter)
  regexFilters : List RegexReplace
  rateLimits : Int → Option RateLimit

/-- Embeds MaskFieldFilter (filters.go). -/
def MaskFieldFilter (mask : Str) : FieldFilter :=
  fun _ _ => .str mask

/-- Embeds RedactFieldFilter (filters.go): replaces the value by the empty
string. -/
def RedactFieldFilter : FieldFilter :=
  fun _ _ => .str []

/-- Embeds LevelCondition (filters.go). -/
def LevelCondition (minLevel : Int) : LogCondition :=
  fun level _ _ => minLevel ≤ level

/-- Embeds MessageContainsCondition (filters.go). -/
def MessageContainsCondition (substring : Str) : LogCondition :=
  fun _ msg _ => containsL msg substring

/-- Embeds the Go map lookup config.FieldFilters[key] as an association-list
lookup (map keys are unique, so first-match lookup is faithful). -/
def lookupField : List (Str × FieldFilter) → Str → Option FieldFilter
  | [], _ => none
  | (k, f) :: rest, key => if k = key then some f else lookupField rest key

/-- The conjunction loop inside filteredHandler.shouldLog: returns false at
the first failing condition. -/
def condsAll : List LogCondition → Int → Str → List Attr → Bool
  | [], _, _, _ => true
  | c :: rest, l, m, a => if c l m a then condsAll rest l m a else false

/-- Embeds filteredHandler.shouldLog (buffer.go): an empty condition list
logs everything; otherwise all conditions must pass. -/
def shouldLog (cfg : FilterConfig) (l : Int) (m : Str) (a : List Attr) : Bool :=
  if cfg.conditions.isEmpty then true
  else condsAll cfg.conditions l m a

/-- The registration-order loop applying every regex replacement. -/
def applyRegexAll : List RegexReplace → Str → Str
  | [], s => s
  | g :: rest, s => applyRegexAll rest (g s)

/-- Embeds filteredHandler.applyFiltersToAttr (buffer.go): the per-key field
filter replaces the value first, then, when the (possibly replaced) value is
of string kind, every regex filter is applied in registration order. -/
def applyFiltersToAttr (cfg : FilterConfig) (a : Attr) : Attr :=
  let a1 := match lookupField cfg.fieldFilters a.key with
    | some f => { a with val := f a.key a.val }
    | none => a
  match a1.val with
  | .str s => { a1 with val := .str (applyRegexAll cfg.regexFilters s) }
  | v => { a1 with val := v }

/-- The collection loop inside filteredHandler.applyFieldFilters: only
attributes whose filtered String() form is non-empty are kept. -/
def filterNonEmpty (cfg : FilterConfig) : List Attr → List Attr
  | [] => []
  | a :: rest =>
    let fa := applyFiltersToAttr cfg a
    if valueToString fa.val = [] then filterNonEmpty cfg rest
    else fa :: filterNonEmpty cfg rest

/-- Embeds filteredHandler.applyFieldFilters (buffer.go): when no field
filters and no regex filters are registered the attribute list is returned
unchanged; otherwise each attribute is filtered and empty-valued results are
dropped. -/
def applyFieldFilters (cfg : FilterConfig) (attrs : List Attr) : List Attr :=
  if cfg.fieldFilters.isEmpty && cfg.regexFilters.isEmpty then attrs
  else filterNonEmpty cfg attrs

/-- Modelled from the spec: the field-filtering stage as the spec words it —
replace each attribute value per the registered per-key filter, apply every
regex rule in registration order to string values, then drop any attribute
whose resulting value is empty (no special case for an empty filter
configuration). -/
def claimApplyFieldFilters (cfg : FilterConfig) (attrs : List Attr) : List Attr :=
  (attrs.map (applyFiltersToAttr cfg)).filter (fun a => decide (valueToString a.val ≠ []))

/-- Embeds filteredHandler.checkRateLimit (buffer.go), acting on the
RateLimits map entry for the record level.  The local copy semantics of the
source are preserved: the reset is stored back to the map, and the
incremented counter is stored back only when the record is admitted. -/
def checkRateLimit : Option RateLimit → Int → Bool × Option RateLimit
  | none, _ => (true, none)
  | some rl, now =>
    let afterReset :=
      if now - rl.lastReset ≥ rl.period then { rl with counter := 0, lastReset := now }
      else rl
    let current := afterReset.counter + 1
    if current ≤ afterReset.maxCount then
      (true, some { afterReset with counter := current })
    else (false, some afterReset)

/-- A sequence of rate-limit evaluations at one level, at the given
timestamps, threading the map entry through. -/
def rateLimitRun : Option RateLimit → List Int → List Bool
  | _, [] => []
  | e, t :: ts =>
    let r := checkRateLimit e t
    r.1 :: rateLimitRun r.2 ts

/-- Embeds filteredHandler.Handle (buffer.go): rate limiting first, then the
condition check, then field filtering; the result is the attribute list of
the record passed on to the wrapped handler (none when the record is
dropped), together with the updated configuration state. -/
def handleRecord (cfg : FilterConfig) (level : Int) (msg : Str)
    (attrs : List Attr) (now : Int) : Option (List Attr) × FilterConfig :=
  let rc := checkRateLimit (cfg.rateLimits level) now
  let cfg1 : FilterConfig :=
    { cfg with rateLimits := fun l => if l = level then rc.2 else cfg.rateLimits l }
  if !rc.1 then (none, cfg1)
  else if !(shouldLog cfg1 level msg attrs) then (none, cfg1)
  else (some (applyFieldFilters cfg1 attrs), cfg1)

/-! Logger file handling (logger source file): dual-stream routing,
reinitialization / rotation, and Close.  The filesystem collaborator is a
world of numeric file handles. -/

/-- Filesystem world: the set of currently open handles, the next handle id
os.OpenFile would hand out, and whether opening fails (e.g. the directory
became unwritable). -/
structure FSWorld where
  openFiles : List Nat
  nextId : Nat
  openFail : Bool
deriving DecidableEq

/-- Embeds os.File.Close on a handle: succeeds once; a second close of the
same handle returns an error (os.ErrClosed), exactly as in Go. -/
def fileCloseE (w : FSWorld) (i : Nat) : Option String × FSWorld :=
  if i ∈ w.openFiles then (none, { w with openFiles := w.openFiles.erase i })
  else (some "file already closed", w)

/-- Embeds os.OpenFile (append mode): fails when the world says so,
otherwise yields a fresh open handle. -/
def fileOpen (w : FSWorld) : Option Nat × FSWorld :=
  if w.openFail then (none, w)
  else (some w.nextId,
        { w with openFiles := w.openFiles ++ [w.nextId], nextId := w.nextId + 1 })

/-- Embeds the Logger fields relevant to rotation and Close: the stored file
handles (infoFile / errorFile), the handles the slog handlers write through
(set only when initLoggers succeeds end-to-end), and the active day. -/
structure LoggerState where
  infoFile : Option Nat
  errorFile : Option Nat
  infoDest : Option Nat
  errorDest : Option Nat
  currentDate : Int
deriving DecidableEq

/-- Embeds Logger.initLoggers: close the existing handles (errors ignored),
open the info file — on failure return the error (the multi-assignment has
already overwritten l.infoFile with nil) — then the error file likewise;
only on full success are the handlers rebuilt over the new handles and the
active day updated. -/
def initLoggers (l : LoggerState) (w : FSWorld) (today : Int) :
    Option String × LoggerState × FSWorld :=
  let w1 := match l.infoFile with
    | some i => (fileCloseE w i).2
    | none => w
  let w2 := match l.errorFile with
    | some j => (fileCloseE w1 j).2
    | none => w1
  match fileOpen w2 with
  | (none, w3) => (some "failed to open info log file", { l with infoFile := none }, w3)
  | (some ni, w3) =>
    let l1 := { l with infoFile := some ni }
    match fileOpen w3 with
    | (none, w4) => (some "failed to open error log file", { l1 with errorFile := none }, w4)
    | (some ne, w4) =>
      let l2 := { l1 with errorFile := some ne }
      (none,
       { l2 with infoDest := some ni, errorDest := some ne, currentDate := today },
       w4)

/-- Embeds Logger.RotateNow: an unconditional reinitialization. -/
def rotateNow (l : LoggerState) (w : FSWorld) (today : Int) :
    Option String × LoggerState × FSWorld :=
  initLoggers l w today

/-- Whether a log call issued after a (possibly failed) rotation can deliver
bytes to the info destination: the handler must hold a handle and that
handle must still be open. -/
def writeToInfoDest (l : LoggerState) (w : FSWorld) : Bool :=
  match l.infoDest with
  | some i => decide (i ∈ w.openFiles)
  | none => false

/-- Embeds Logger.Close: closes the stored info and error handles, collects
their errors, and reports a combined error when any close failed; the
handle fields are not cleared. -/
def loggerClose (l : LoggerState) (w : FSWorld) : Option String × FSWorld :=
  let r1 := match l.infoFile with
    | some i => fileCloseE w i
    | none => ((none : Option String), w)
  let r2 := match l.errorFile with
    | some j => fileCloseE r1.2 j
    | none => ((none : Option String), r1.2)
  (if r1.1.isSome || r2.1.isSome then some "errors closing files" else none, r2.2)

/-! Dual-stream routing of a formatted record (logger source file). -/

/-- The four byte streams a record can reach: the two daily files and the
two console streams. -/
structure Sinks where
  infoFileData : Str
  errorFileData : Str
  stdoutData : Str
  stderrData : Str
deriving DecidableEq

/-- Embeds levelFilterWriter.Write: serialized records carrying a WARN or
ERROR marker are not written to the info file (the call still reports the
full length as written); DEBUG/INFO records are appended. -/
def levelFilterWrite (fileData : Str) (p : Str) : Str × Nat :=
  if hasWarnMarker p then (fileData, p.length)
  else (fileData ++ p, p.length)

/-- The info stream writer built in initLoggers:
io.MultiWriter(os.Stdout, levelFilterWriter(infoFile)). -/
def writeInfoStream (s : Sinks) (p : Str) : Sinks :=
  { s with stdoutData := s.stdoutData ++ p,
           infoFileData := (levelFilterWrite s.infoFileData p).1 }

/-- The error stream writer built in initLoggers:
io.MultiWriter(os.Stderr, errorFile). -/
def writeErrorStream (s : Sinks) (p : Str) : Sinks :=
  { s with stderrData := s.stderrData ++ p,
           errorFileData := s.errorFileData ++ p }

/-- Embeds the routing of the per-level Logger methods for an admitted
serialized record p: Debug/Info write through the info stream only; Warn and
Error (level ≥ LevelWarn) write through the info stream and then the error
stream, as Logger.Warn / Logger.Error do. -/
def logDispatch (level : Int) (p : Str) (s : Sinks) : Sinks :=
  if level ≥ levelWarn then writeErrorStream (writeInfoStream s p) p
  else writeInfoStream s p

/-! Retention sweep (cleanup source file). -/

/-- Embeds os.DirEntry together with the modification time of its file,
measured in days. -/
structure DirEntry where
  name : Str
  isDir : Bool
  mtimeDay : Int
deriving DecidableEq

/-- Embeds Logger.isOurLogFile: app-name prefix, ".log" suffix, and one of
the two expected filename stems. -/
def isOurLogFile (app n : Str) : Bool :=
  if !(hasPrefixL n app) then false
  else if !(hasSuffixL n ".log".data) then false
  else if hasPrefixL n (app ++ "_".data) then true
  else if hasPrefixL n (app ++ "_error_".data) then true
  else false

/-- Embeds Logger.shouldRemoveFile: the modification time is strictly before
the cutoff. -/
def shouldRemoveFile (e : DirEntry) (cutoff : Int) : Bool :=
  decide (e.mtimeDay < cutoff)

/-- Embeds the loop of Logger.performCleanup, returning the names of the
removed files: directories are skipped, then the naming convention is
checked, then the age test against cutoff = now − retentionDays (removal
itself always succeeds in the model). -/
def performCleanup (app : Str) (retentionDays now : Int) : List DirEntry → List Str
  | [] => []
  | e :: rest =>
    if e.isDir then performCleanup app retentionDays now rest
    else if !(isOurLogFile app e.name) then performCleanup app retentionDays now rest
    else if shouldRemoveFile e (now - retentionDays) then
      e.name :: performCleanup app retentionDays now rest
    else performCleanup app retentionDays now rest

/-- The claim's characterisation of a removable entry: a non-directory whose
name starts with the literal app_ or app_error_ stem, ends with .log, and
whose modification time is strictly before now − retentionDays. -/
def claimRemovable (app : Str) (retentionDays now : Int) (e : DirEntry) : Bool :=
  !e.isDir &&
    (hasPrefixL e.name (app ++ "_".data) || hasPrefixL e.name (app ++ "_error_".data)) &&
    hasSuffixL e.name ".log".data &&
    decide (e.mtimeDay < now - retentionDays)

/-! Helper lemmas. -/

theorem hasPrefixL_of_append (s a b : Str) (h : hasPrefixL s (a ++ b) = true) :
    hasPrefixL s a = true := by
  induction a generalizing s with
  | nil => simp [hasPrefixL]
  | cons p ps ih =>
    cases s with
    | nil => simp [hasPrefixL] at h
    | cons c cs =>
      simp only [List.cons_append, hasPrefixL, Bool.and_eq_true] at h ⊢
      exact ⟨h.1, ih cs h.2⟩

theorem isOurLogFile_eq (app n : Str) :
    isOurLogFile app n =
      ((hasPrefixL n (app ++ "_".data) || hasPrefixL n (app ++ "_error_".data)) &&
        hasSuffixL n ".log".data) := by
  unfold isOurLogFile
  cases hp : hasPrefixL n app with
  | false =>
    cases h1 : hasPrefixL n (app ++ "_".data) with
    | true => exact absurd (hasPrefixL_of_append n app "_".data h1) (by simp [hp])
    | false =>
      cases h2 : hasPrefixL n (app ++ "_error_".data) with
      | true => exact absurd (hasPrefixL_of_append n app "_error_".data h2) (by simp [hp])
      | false => simp [hp, h1, h2]
  | true =>
    cases hs : hasSuffixL n ".log".data with
    | false => simp [hp, hs]
    | true =>
      cases h1 : hasPrefixL n (app ++ "_".data) <;>
        cases h2 : hasPrefixL n (app ++ "_error_".data) <;>
          simp [hp, hs, h1, h2]

theorem condsAll_iff (cs : List LogCondition) (l : Int) (m : Str) (a : List Attr) :
    condsAll cs l m a = true ↔ ∀ c ∈ cs, c l m a = true := by
  induction cs with
  | nil => simp [condsAll]
  | cons c rest ih =>
    by_cases hc : c l m a = true
    · simp [condsAll, hc, ih]
    · simp only [condsAll, if_neg hc]
      constructor
      · intro h
        exact absurd h (by simp)
      · intro h
        exact absurd (h c (List.mem_cons_self c rest)) hc

theorem rateLimitRun_none (ts : List Int) :
    rateLimitRun none ts = List.replicate ts.length true := by
  induction ts with
  | nil => rfl
  | cons t ts ih => simp [rateLimitRun, checkRateLimit, ih, List.replicate]

theorem checkRateLimit_no_reset (rl : RateLimit) (t : Int)
    (h : ¬(t - rl.lastReset ≥ rl.period)) :
    checkRateLimit (some rl) t =
      if rl.counter + 1 ≤ rl.maxCount then (true, some { rl with counter := rl.counter + 1 })
      else (false, some rl) := by
  simp only [checkRateLimit, if_neg h]

theorem rateLimitRun_window (N P t0 c : Int) (ts : List Int)
    (hw : ∀ t ∈ ts, t - t0 < P) :
    rateLimitRun (some ⟨N, P, c, t0⟩) ts =
      (List.range ts.length).map (fun (i : Nat) => decide (c + (i : Int) + 1 ≤ N)) := by
  induction ts generalizing c with
  | nil => rfl
  | cons t ts ih =>
    have hnr : ¬(t - t0 ≥ P) := by
      have := hw t (List.mem_cons_self t ts)
      omega
    have hwt : ∀ u ∈ ts, u - t0 < P := fun u hu => hw u (List.mem_cons_of_mem _ hu)
    have hck := checkRateLimit_no_reset ⟨N, P, c, t0⟩ t hnr
    by_cases hcm : c + 1 ≤ N
    · simp only [rateLimitRun]
      rw [hck, if_pos hcm]
      show true :: rateLimitRun (some ⟨N, P, c + 1, t0⟩) ts = _
      rw [ih (c + 1) hwt, List.length_cons, List.range_succ_eq_map, List.map_cons,
        List.map_map]
      refine List.cons_eq_cons.mpr ⟨?_, ?_⟩
      · exact (decide_eq_true (by omega)).symm
      · apply List.map_congr_left
        intro i _
        simp only [Function.comp_apply]
        exact decide_eq_decide.mpr (by push_cast; omega)
    · simp only [rateLimitRun]
      rw [hck, if_neg hcm]
      show false :: rateLimitRun (some ⟨N, P, c, t0⟩) ts = _
      rw [ih c hwt, List.length_cons, List.range_succ_eq_map, List.map_cons, List.map_map]
      refine List.cons_eq_cons.mpr ⟨?_, ?_⟩
      · exact (decide_eq_false (by omega)).symm
      · apply List.map_congr_left
        intro i _
        simp only [Function.comp_apply]
        exact decide_eq_decide.mpr (by push_cast; omega)

theorem claimRemovable_eq (app : Str) (retentionDays now : Int) (e : DirEntry) :
    claimRemovable app retentionDays now e =
      (!e.isDir && (isOurLogFile app e.name && shouldRemoveFile e (now - retentionDays))) := by
  cases hd : e.isDir <;>
    cases h1 : hasPrefixL e.name (app ++ "_".data) <;>
      cases h2 : hasPrefixL e.name (app ++ "_error_".data) <;>
        cases hs : hasSuffixL e.name ".log".data <;>
          simp [claimRemovable, isOurLogFile_eq, shouldRemoveFile, hd, h1, h2, hs]

/-! Claim theorems. -/

/-- C10: a retention sweep removes exactly the non-directory entries whose
filename starts with the literal app_ or app_error_ stem, ends in .log, and
whose modification time is strictly before now − retentionDays; the second
conjunct is the spec example, in which otherapp_2024-01-01.log is untouched
by the sweep for app name "app". -/
theorem retention_sweep_exact (app : Str) (retentionDays now : Int) (entries : List DirEntry) :
    performCleanup app retentionDays now entries =
      (entries.filter (claimRemovable app retentionDays now)).map DirEntry.name ∧
    performCleanup "app".data 7 10
        [⟨"app_2024-01-01.log".data, false, 0⟩,
         ⟨"app_2024-01-10.log".data, false, 10⟩,
         ⟨"otherapp_2024-01-01.log".data, false, 0⟩] =
      ["app_2024-01-01.log".data] := by
  constructor
  · induction entries with
    | nil => simp [performCleanup]
    | cons e rest ih =>
      rw [List.filter_cons, claimRemovable_eq]
      simp only [performCleanup]
      by_cases hd : e.isDir = true
      · simp [hd, ih]
      · have hd' : e.isDir = false := by simpa using hd
        by_cases ho : isOurLogFile app e.name = true
        · by_cases hm : shouldRemoveFile e (now - retentionDays) = true
          · simp [hd', ho, hm, ih]
          · have hm' : shouldRemoveFile e (now - retentionDays) = false := by simpa using hm
            simp [hd', ho, hm', ih]
        · have ho' : isOurLogFile app e.name = false := by simpa using ho
          simp [hd', ho', ih]
  · decide

/-- C8: at the condition stage, an empty condition list admits the record
unconditionally, and a non-empty list admits the record exactly when every
condition returns true for the level, message and attributes. -/
theorem condition_stage_semantics (cfg0 cfg : FilterConfig) (l : Int) (m : Str) (a : List Attr)
    (h0 : cfg0.conditions = []) (hne : cfg.conditions ≠ []) :
    shouldLog cfg0 l m a = true ∧
      (shouldLog cfg l m a = true ↔ ∀ c ∈ cfg.conditions, c l m a = true) := by
  constructor
  · simp [shouldLog, h0]
  · have he : cfg.conditions.isEmpty = false := by
      cases hc : cfg.conditions with
      | nil => exact absurd hc hne
      | cons => simp
    rw [shouldLog, he]
    simp only [Bool.false_eq_true, if_false]
    exact condsAll_iff cfg.conditions l m a

/-- C8 witness: empty condition list admits; a concrete two-condition list
admits exactly when both conditions hold. -/
theorem condition_stage_semantics_witness :
    (⟨[], [], [], fun _ => none⟩ : FilterConfig).conditions = [] ∧
      (⟨[LevelCondition levelWarn, MessageContainsCondition "boom".data], [], [],
          fun _ => none⟩ : FilterConfig).conditions ≠ [] ∧
      (shouldLog ⟨[], [], [], fun _ => none⟩ 8 "big boom".data [] = true ∧
        (shouldLog ⟨[LevelCondition levelWarn, MessageContainsCondition "boom".data], [], [],
            fun _ => none⟩ 8 "big boom".data [] = true ↔
          ∀ c ∈ (⟨[LevelCondition levelWarn, MessageContainsCondition "boom".data], [], [],
              fun _ => none⟩ : FilterConfig).conditions, c 8 "big boom".data [] = true)) :=
  ⟨rfl, by simp,
    condition_stage_semantics ⟨[], [], [], fun _ => none⟩
      ⟨[LevelCondition levelWarn, MessageContainsCondition "boom".data], [], [], fun _ => none⟩
      8 "big boom".data [] rfl (by simp)⟩

/-- C2 counterexample: the claim asserts that an evaluation after the window
has elapsed zeroes the counter and is then admitted, but with a configured
max-count of 0 (expressible through WithRateLimit) the post-reset increment
1 exceeds 0 and the evaluation is dropped. -/
theorem rate_limit_zero_max_reset_cx :
    (100 : Int) - 0 ≥ 60 ∧ (checkRateLimit (some ⟨0, 60, 0, 0⟩) 100).1 = false := by
  decide

/-- C2 (amended: the post-window evaluation is admitted provided the
configured max-count is at least 1): levels with no configured entry are
never rate-limited; within a single window exactly the first N of the
evaluations are admitted; and an evaluation at least a period after the last
reset zeroes the counter, stamps the reset time, and is admitted. -/
theorem rate_limit_behavior (ts1 : List Int) (N P t0 : Int) (ts : List Int)
    (rl : RateLimit) (t : Int)
    (hw : ∀ u ∈ ts, u - t0 < P)
    (hE : t - rl.lastReset ≥ rl.period) (h1 : 1 ≤ rl.maxCount) :
    rateLimitRun none ts1 = List.replicate ts1.length true ∧
      rateLimitRun (some ⟨N, P, 0, t0⟩) ts =
        (List.range ts.length).map (fun (i : Nat) => decide ((i : Int) + 1 ≤ N)) ∧
      checkRateLimit (some rl) t = (true, some ⟨rl.maxCount, rl.period, 1, t⟩) := by
  refine ⟨rateLimitRun_none ts1, ?_, ?_⟩
  · rw [rateLimitRun_window N P t0 0 ts hw]
    apply List.map_congr_left
    intro i _
    exact decide_eq_decide.mpr (by omega)
  · obtain ⟨mc, pd, cnt, lr⟩ := rl
    simp only [] at hE h1
    simp [checkRateLimit, hE, h1]

/-- C2 witness: max 3 per 60-unit window, five evaluations inside the window
admit exactly the first three; an evaluation at time 100 after the window
resets and is admitted. -/
theorem rate_limit_behavior_witness :
    (∀ u ∈ [(1 : Int), 2, 3, 4, 5], u - 0 < 60) ∧
      ((100 : Int) - (⟨3, 60, 3, 0⟩ : RateLimit).lastReset ≥ (⟨3, 60, 3, 0⟩ : RateLimit).period ∧
        (1 : Int) ≤ (⟨3, 60, 3, 0⟩ : RateLimit).maxCount) ∧
      (rateLimitRun none [7, 8] = List.replicate ([(7 : Int), 8]).length true ∧
        rateLimitRun (some ⟨3, 60, 0, 0⟩) [1, 2, 3, 4, 5] =
          (List.range ([(1 : Int), 2, 3, 4, 5]).length).map
            (fun (i : Nat) => decide ((i : Int) + 1 ≤ 3)) ∧
        checkRateLimit (some ⟨3, 60, 3, 0⟩) 100 = (true, some ⟨3, 60, 1, 100⟩)) :=
  ⟨by decide, ⟨by decide, by decide⟩,
    rate_limit_behavior [7, 8] 3 60 0 [1, 2, 3, 4, 5] ⟨3, 60, 3, 0⟩ 100
      (by decide) (by decide) (by decide)⟩

theorem hasWarnMarker_ne_nil (p : Str) (h : hasWarnMarker p = true) : p ≠ [] := by
  intro he
  rw [he] at h
  exact absurd h (by decide)

theorem sfi_warn (p : Str) : shouldFlushImmediately levelWarn p = hasWarnMarker p := rfl

theorem flushLocked_empty (x : BWState) (h : x.buffer = []) : flushLocked x = (none, x) := by
  have h0 : x.buffer.length = 0 := by rw [h]; rfl
  simp only [flushLocked, if_pos h0]

theorem flushLocked_ok (x : BWState) (h : ¬(x.buffer = [])) (hf : x.destFail = false) :
    flushLocked x = (none,
      { x with buffer := [], dest := x.dest ++ x.buffer,
               destAttempts := x.destAttempts ++ [x.buffer] }) := by
  have hl : ¬(x.buffer.length = 0) := by
    intro h0
    exact h (List.length_eq_zero.mp h0)
  simp only [flushLocked, if_neg hl, destWrite]
  rw [if_neg (show ¬(({ x with destAttempts := x.destAttempts ++ [x.buffer] } :
    BWState).destFail = true) by simpa using hf)]

theorem flushLocked_fail (x : BWState) (h : ¬(x.buffer = [])) (hf : x.destFail = true) :
    flushLocked x = (some "destination write error",
      { x with destAttempts := x.destAttempts ++ [x.buffer] }) := by
  have hl : ¬(x.buffer.length = 0) := by
    intro h0
    exact h (List.length_eq_zero.mp h0)
  simp only [flushLocked, if_neg hl, destWrite]
  rw [if_pos (show ({ x with destAttempts := x.destAttempts ++ [x.buffer] } :
    BWState).destFail = true from hf)]

theorem bwWrite_buffered (x : BWState) (p : Str) (hns : ¬(x.size = 0)) :
    bwWrite x p =
      if (x.buffer ++ p).length ≥ x.size ∨ shouldFlushImmediately x.flushOnLevel p = true
      then ((p.length, (flushLocked { x with buffer := x.buffer ++ p }).1),
            (flushLocked { x with buffer := x.buffer ++ p }).2)
      else ((p.length, none), { x with buffer := x.buffer ++ p }) := by
  simp only [bwWrite, if_neg hns]

/-- C3: with buffering enabled (capacity > 0) and a succeeding destination,
the buffer length never exceeds the capacity once Write returns; and a
single Write whose payload alone reaches or exceeds the capacity leaves the
destination holding that payload and the buffer empty when Write returns. -/
theorem buffer_capacity_invariant (s t : BWState) (p q : Str)
    (hs : 0 < s.size) (hsf : s.destFail = false)
    (ht : 0 < t.size) (htf : t.destFail = false)
    (htb : t.buffer = []) (htq : t.size ≤ q.length) :
    (bwWrite s p).2.buffer.length ≤ s.size ∧
      (bwWrite t q).2.dest = t.dest ++ q ∧ (bwWrite t q).2.buffer = [] := by
  refine ⟨?_, ?_⟩
  · have hns : ¬(s.size = 0) := by omega
    rw [bwWrite_buffered s p hns]
    by_cases htr : ((s.buffer ++ p).length ≥ s.size ∨
        shouldFlushImmediately s.flushOnLevel p = true)
    · rw [if_pos htr]
      by_cases hb : s.buffer ++ p = []
      · rw [flushLocked_empty { s with buffer := s.buffer ++ p } hb]
        show (s.buffer ++ p).length ≤ s.size
        rw [hb]
        exact Nat.zero_le _
      · rw [flushLocked_ok { s with buffer := s.buffer ++ p } hb hsf]
        show ([] : Str).length ≤ s.size
        exact Nat.zero_le _
    · rw [if_neg htr]
      simp only [not_or] at htr
      have h1 := htr.1
      show (s.buffer ++ p).length ≤ s.size
      omega
  · have hns : ¬(t.size = 0) := by omega
    rw [bwWrite_buffered t q hns]
    have hql : ¬(q.length = 0) := by omega
    have htr : ((t.buffer ++ q).length ≥ t.size ∨
        shouldFlushImmediately t.flushOnLevel q = true) := by
      left
      rw [htb, List.nil_append]
      exact htq
    rw [if_pos htr]
    have hb : ¬(t.buffer ++ q = []) := by
      rw [htb, List.nil_append]
      intro h0
      rw [h0] at hql
      exact hql rfl
    rw [flushLocked_ok { t with buffer := t.buffer ++ q } hb htf]
    constructor
    · show t.dest ++ (t.buffer ++ q) = t.dest ++ q
      rw [htb, List.nil_append]
    · rfl

/-- C3 witness: capacity 3, empty buffer, succeeding destination, 4-byte
payload: both the invariant and the size-trigger conclusion hold. -/
theorem buffer_capacity_invariant_witness :
    (0 < (⟨3, levelError, [], [], [], false, true, false, false⟩ : BWState).size ∧
        (⟨3, levelError, [], [], [], false, true, false, false⟩ : BWState).destFail = false ∧
        (⟨3, levelError, [], [], [], false, true, false, false⟩ : BWState).buffer = [] ∧
        (⟨3, levelError, [], [], [], false, true, false, false⟩ : BWState).size ≤
          "abcd".data.length) ∧
      ((bwWrite ⟨3, levelError, [], [], [], false, true, false, false⟩
            "abcd".data).2.buffer.length ≤
          (⟨3, levelError, [], [], [], false, true, false, false⟩ : BWState).size ∧
        (bwWrite ⟨3, levelError, [], [], [], false, true, false, false⟩ "abcd".data).2.dest =
          (⟨3, levelError, [], [], [], false, true, false, false⟩ : BWState).dest ++
            "abcd".data ∧
        (bwWrite ⟨3, levelError, [], [], [], false, true, false, false⟩ "abcd".data).2.buffer =
          []) :=
  ⟨⟨by decide, by decide, by decide, by decide⟩,
    buffer_capacity_invariant ⟨3, levelError, [], [], [], false, true, false, false⟩
      ⟨3, levelError, [], [], [], false, true, false, false⟩ "abcd".data "abcd".data
      (by decide) (by decide) (by decide) (by decide) (by decide) (by decide)⟩

/-- C4: with flush-on-level Warn, a Write carrying no WARN/ERROR marker and
fitting under the capacity leaves the destination unchanged and only grows
the buffer; a following Write whose serialized bytes carry a WARN or ERROR
marker (either encoding) synchronously flushes the previously buffered
bytes followed by the new record to the destination. -/
theorem flush_on_level_warn (s : BWState) (p1 p2 : Str)
    (hfol : s.flushOnLevel = levelWarn)
    (hdf : s.destFail = false)
    (hm1 : hasWarnMarker p1 = false)
    (hsz : s.buffer.length + p1.length < s.size)
    (hm2 : hasWarnMarker p2 = true) :
    ((bwWrite s p1).2.dest = s.dest ∧ (bwWrite s p1).2.buffer = s.buffer ++ p1) ∧
      (bwWrite (bwWrite s p1).2 p2).2.dest = s.dest ++ (s.buffer ++ p1 ++ p2) ∧
      (bwWrite (bwWrite s p1).2 p2).2.buffer = [] := by
  have hns : ¬(s.size = 0) := by omega
  have hlen : (s.buffer ++ p1).length = s.buffer.length + p1.length :=
    List.length_append _ _
  have hnt : ¬((s.buffer ++ p1).length ≥ s.size ∨
      shouldFlushImmediately s.flushOnLevel p1 = true) := by
    rw [hfol, sfi_warn, hm1]
    simp only [Bool.false_eq_true, or_false]
    omega
  have hw1 : bwWrite s p1 = ((p1.length, none), { s with buffer := s.buffer ++ p1 }) := by
    rw [bwWrite_buffered s p1 hns, if_neg hnt]
  have hp2 : ¬(p2 = []) := hasWarnMarker_ne_nil p2 hm2
  have hb2 : ¬((s.buffer ++ p1) ++ p2 = []) := by
    intro h0
    exact hp2 (List.append_eq_nil.mp h0).2
  refine ⟨⟨by rw [hw1], by rw [hw1]⟩, ?_⟩
  rw [hw1]
  show (bwWrite { s with buffer := s.buffer ++ p1 } p2).2.dest =
      s.dest ++ (s.buffer ++ p1 ++ p2) ∧
    (bwWrite { s with buffer := s.buffer ++ p1 } p2).2.buffer = []
  rw [bwWrite_buffered { s with buffer := s.buffer ++ p1 } p2 hns]
  have htr2 : ((({ s with buffer := s.buffer ++ p1 } : BWState).buffer ++ p2).length ≥
        ({ s with buffer := s.buffer ++ p1 } : BWState).size ∨
      shouldFlushImmediately ({ s with buffer := s.buffer ++ p1 } : BWState).flushOnLevel p2
        = true) := by
    right
    show shouldFlushImmediately s.flushOnLevel p2 = true
    rw [hfol, sfi_warn, hm2]
  rw [if_pos htr2]
  show ((p2.length, (flushLocked { s with buffer := s.buffer ++ p1 ++ p2 }).1),
        (flushLocked { s with buffer := s.buffer ++ p1 ++ p2 }).2).2.dest =
      s.dest ++ (s.buffer ++ p1 ++ p2) ∧
    ((p2.length, (flushLocked { s with buffer := s.buffer ++ p1 ++ p2 }).1),
        (flushLocked { s with buffer := s.buffer ++ p1 ++ p2 }).2).2.buffer = []
  rw [flushLocked_ok { s with buffer := s.buffer ++ p1 ++ p2 } hb2 hdf]
  exact ⟨rfl, rfl⟩

/-- C4 witness: a text-encoded INFO record is buffered without reaching the
destination; a following text-encoded WARN record flushes both records. -/
theorem flush_on_level_warn_witness :
    ((⟨100, levelWarn, [], [], [], false, true, false, false⟩ : BWState).flushOnLevel =
        levelWarn ∧
      hasWarnMarker "time=1 level=INFO msg=a".data = false ∧
      (⟨100, levelWarn, [], [], [], false, true, false, false⟩ : BWState).buffer.length +
          "time=1 level=INFO msg=a".data.length <
        (⟨100, levelWarn, [], [], [], false, true, false, false⟩ : BWState).size ∧
      hasWarnMarker "time=2 level=WARN msg=b".data = true) ∧
      (((bwWrite ⟨100, levelWarn, [], [], [], false, true, false, false⟩
              "time=1 level=INFO msg=a".data).2.dest =
            (⟨100, levelWarn, [], [], [], false, true, false, false⟩ : BWState).dest ∧
          (bwWrite ⟨100, levelWarn, [], [], [], false, true, false, false⟩
              "time=1 level=INFO msg=a".data).2.buffer =
            (⟨100, levelWarn, [], [], [], false, true, false, false⟩ : BWState).buffer ++
              "time=1 level=INFO msg=a".data) ∧
        (bwWrite (bwWrite ⟨100, levelWarn, [], [], [], false, true, false, false⟩
              "time=1 level=INFO msg=a".data).2 "time=2 level=WARN msg=b".data).2.dest =
          (⟨100, levelWarn, [], [], [], false, true, false, false⟩ : BWState).dest ++
            ((⟨100, levelWarn, [], [], [], false, true, false, false⟩ : BWState).buffer ++
              "time=1 level=INFO msg=a".data ++ "time=2 level=WARN msg=b".data) ∧
        (bwWrite (bwWrite ⟨100, levelWarn, [], [], [], false, true, false, false⟩
              "time=1 level=INFO msg=a".data).2 "time=2 level=WARN msg=b".data).2.buffer =
          []) :=
  ⟨⟨rfl, by decide, by decide, by decide⟩,
    flush_on_level_warn ⟨100, levelWarn, [], [], [], false, true, false, false⟩
      "time=1 level=INFO msg=a".data "time=2 level=WARN msg=b".data rfl (by decide)
      (by decide) (by decide) (by decide)⟩

/-- C7: Flush on an empty buffer returns success without attempting a
destination write; when the destination write fails, Flush surfaces the
error and preserves the buffer, so the next Flush attempts exactly the same
bytes again; and a Write that triggers a failing flush returns that error
with the buffered bytes (including the new payload) preserved. -/
theorem flush_error_retry (s1 s2 s3 : BWState) (p : Str)
    (hb : s1.buffer = [])
    (hf2 : s2.destFail = true) (hnb : ¬(s2.buffer = []))
    (h03 : 0 < s3.size) (hf3 : s3.destFail = true)
    (ht : s3.size ≤ s3.buffer.length + p.length) :
    bwFlush s1 = (none, s1) ∧
      ((bwFlush s2).1.isSome = true ∧ (bwFlush s2).2.buffer = s2.buffer ∧
        (bwFlush ((bwFlush s2).2)).2.destAttempts =
          s2.destAttempts ++ [s2.buffer, s2.buffer]) ∧
      (bwWrite s3 p).1.2.isSome = true ∧ (bwWrite s3 p).2.buffer = s3.buffer ++ p := by
  refine ⟨flushLocked_empty s1 hb, ?_, ?_⟩
  · have hfl : bwFlush s2 = (some "destination write error",
        { s2 with destAttempts := s2.destAttempts ++ [s2.buffer] }) :=
      flushLocked_fail s2 hnb hf2
    refine ⟨by rw [hfl]; rfl, by rw [hfl], ?_⟩
    rw [hfl]
    have hfl2 : bwFlush ({ s2 with destAttempts := s2.destAttempts ++ [s2.buffer] } :
        BWState) = (some "destination write error",
        { s2 with destAttempts := (s2.destAttempts ++ [s2.buffer]) ++ [s2.buffer] }) :=
      flushLocked_fail _ hnb hf2
    rw [hfl2]
    show (s2.destAttempts ++ [s2.buffer]) ++ [s2.buffer] =
      s2.destAttempts ++ [s2.buffer, s2.buffer]
    simp
  · have hns : ¬(s3.size = 0) := by omega
    have hlen : (s3.buffer ++ p).length = s3.buffer.length + p.length :=
      List.length_append _ _
    have htr : (s3.buffer ++ p).length ≥ s3.size ∨
        shouldFlushImmediately s3.flushOnLevel p = true := by
      left
      omega
    have hb3 : ¬(s3.buffer ++ p = []) := by
      intro h0
      have : (s3.buffer ++ p).length = 0 := by rw [h0]; rfl
      omega
    rw [bwWrite_buffered s3 p hns, if_pos htr,
      flushLocked_fail { s3 with buffer := s3.buffer ++ p } hb3 hf3]
    exact ⟨rfl, rfl⟩

/-- C7 witness: an empty-buffer flush is a no-op; a failing destination
makes Flush retry the identical bytes; a triggering Write surfaces the
error and keeps the bytes. -/
theorem flush_error_retry_witness :
    ((⟨4, levelError, [], [], [], false, true, false, false⟩ : BWState).buffer = [] ∧
      (⟨4, levelError, "ab".data, [], [], true, true, false, false⟩ : BWState).destFail = true ∧
      ¬((⟨4, levelError, "ab".data, [], [], true, true, false, false⟩ : BWState).buffer = []) ∧
      0 < (⟨2, levelError, [], [], [], true, true, false, false⟩ : BWState).size ∧
      (⟨2, levelError, [], [], [], true, true, false, false⟩ : BWState).destFail = true ∧
      (⟨2, levelError, [], [], [], true, true, false, false⟩ : BWState).size ≤
        (⟨2, levelError, [], [], [], true, true, false, false⟩ : BWState).buffer.length +
          "xy".data.length) ∧
      (bwFlush ⟨4, levelError, [], [], [], false, true, false, false⟩ =
          (none, ⟨4, levelError, [], [], [], false, true, false, false⟩) ∧
        ((bwFlush ⟨4, levelError, "ab".data, [], [], true, true, false, false⟩).1.isSome =
            true ∧
          (bwFlush ⟨4, levelError, "ab".data, [], [], true, true, false, false⟩).2.buffer =
            (⟨4, levelError, "ab".data, [], [], true, true, false, false⟩ : BWState).buffer ∧
          (bwFlush ((bwFlush
                ⟨4, levelError, "ab".data, [], [], true, true, false, false⟩).2)).2.destAttempts =
            (⟨4, levelError, "ab".data, [], [], true, true, false, false⟩ :
                BWState).destAttempts ++
              [(⟨4, levelError, "ab".data, [], [], true, true, false, false⟩ :
                  BWState).buffer,
                (⟨4, levelError, "ab".data, [], [], true, true, false, false⟩ :
                  BWState).buffer]) ∧
        (bwWrite ⟨2, levelError, [], [], [], true, true, false, false⟩
              "xy".data).1.2.isSome = true ∧
        (bwWrite ⟨2, levelError, [], [], [], true, true, false, false⟩ "xy".data).2.buffer =
          (⟨2, levelError, [], [], [], true, true, false, false⟩ : BWState).buffer ++
            "xy".data) :=
  ⟨⟨by decide, by decide, by decide, by decide, by decide, by decide⟩,
    flush_error_retry ⟨4, levelError, [], [], [], false, true, false, false⟩
      ⟨4, levelError, "ab".data, [], [], true, true, false, false⟩
      ⟨2, levelError, [], [], [], true, true, false, false⟩ "xy".data (by decide) (by decide)
      (by decide) (by decide) (by decide) (by decide)⟩

theorem bwClose_second (y : BWState) (h1 : y.buffer = []) (h2 : y.onceDone = true) :
    bwClose y = (false, none, y) := by
  simp only [bwClose, if_pos h2]
  rw [flushLocked_empty y h1]

theorem bwClose_fresh (x : BWState) (h1 : x.onceDone = false)
    (h2 : ¬((x.hasStopChan && x.stopChanClosed) = true)) :
    bwClose x = (false,
      (flushLocked { x with stopChanClosed := x.stopChanClosed || x.hasStopChan, onceDone := true }).1,
      (flushLocked { x with stopChanClosed := x.stopChanClosed || x.hasStopChan, onceDone := true }).2) := by
  simp only [bwClose, if_neg (show ¬(x.onceDone = true) by simp [h1]), if_neg h2]

theorem flushLocked_flushed (x : BWState) (hx : x.destFail = false) :
    (flushLocked x).2.buffer = [] ∧ (flushLocked x).2.onceDone = x.onceDone := by
  by_cases hxb : x.buffer = []
  · rw [flushLocked_empty x hxb]
    exact ⟨hxb, rfl⟩
  · rw [flushLocked_ok x hxb hx]
    exact ⟨rfl, rfl⟩

/-- C5 counterexample: the claim says the second Close on the same Logger is
a no-op returning success, but Logger.Close closes the same file handles
again, so the second call collects two close errors and returns an error. -/
theorem logger_double_close_cx :
    (loggerClose ⟨some 0, some 1, some 0, some 1, 0⟩ ⟨[0, 1], 2, false⟩).1 = none ∧
      (loggerClose ⟨some 0, some 1, some 0, some 1, 0⟩
          (loggerClose ⟨some 0, some 1, some 0, some 1, 0⟩ ⟨[0, 1], 2, false⟩).2).1.isSome =
        true := by
  decide

/-- C5 (amended: the buffered sink part holds as claimed, and neither Close
ever panics, but the second Logger.Close returns an error rather than nil
because the stored file handles are closed a second time): double Close on a
buffered sink does not panic, and the second sink Close is a no-op returning
nil; the first Logger.Close succeeds and the second returns an error. -/
theorem close_idempotency (s : BWState) (l : LoggerState) (w : FSWorld) (i j : Nat)
    (hdf : s.destFail = false)
    (hsc : s.onceDone = false → s.stopChanClosed = false)
    (hi : l.infoFile = some i) (hj : l.errorFile = some j) (hij : i ≠ j)
    (hiw : i ∈ w.openFiles) (hjw : j ∈ w.openFiles) (hnd : w.openFiles.Nodup) :
    (bwClose s).1 = false ∧
      bwClose (bwClose s).2.2 = (false, none, (bwClose s).2.2) ∧
      (loggerClose l w).1 = none ∧
      (loggerClose l (loggerClose l w).2).1.isSome = true := by
  have hjw1 : j ∈ w.openFiles.erase i :=
    (List.Nodup.mem_erase_iff hnd).mpr ⟨Ne.symm hij, hjw⟩
  have hsink : (bwClose s).1 = false ∧
      bwClose (bwClose s).2.2 = (false, none, (bwClose s).2.2) := by
    by_cases hod : s.onceDone = true
    · have hcl : bwClose s = (false, (flushLocked s).1, (flushLocked s).2) := by
        simp only [bwClose, if_pos hod]
      obtain ⟨hb1, hb2⟩ := flushLocked_flushed s hdf
      refine ⟨by rw [hcl], ?_⟩
      rw [hcl]
      exact bwClose_second _ hb1 (by rw [hb2]; exact hod)
    · have hod' : s.onceDone = false := by simpa using hod
      have hscc : s.stopChanClosed = false := hsc hod'
      have hcond : ¬((s.hasStopChan && s.stopChanClosed) = true) := by
        rw [hscc]
        simp
      have hcl := bwClose_fresh s hod' hcond
      obtain ⟨hb1, hb2⟩ := flushLocked_flushed
        { s with stopChanClosed := s.stopChanClosed || s.hasStopChan, onceDone := true } hdf
      refine ⟨by rw [hcl], ?_⟩
      rw [hcl]
      exact bwClose_second _ hb1 (by rw [hb2])
  have hc1 : loggerClose l w =
      (none, { w with openFiles := (w.openFiles.erase i).erase j }) := by
    simp [loggerClose, hi, hj, fileCloseE, hiw, hjw1]
  have hni : i ∉ (w.openFiles.erase i).erase j := by
    intro hmem
    exact ((List.Nodup.mem_erase_iff hnd).mp (List.mem_of_mem_erase hmem)).1 rfl
  refine ⟨hsink.1, hsink.2, by rw [hc1], ?_⟩
  rw [hc1]
  simp [loggerClose, hi, hj, fileCloseE, hni]

/-- C5 witness: a concrete buffered sink with pending bytes and a concrete
logger over two open handles. -/
theorem close_idempotency_witness :
    ((⟨8, levelError, "ab".data, [], [], false, true, false, false⟩ : BWState).destFail =
        false ∧
      (⟨some 0, some 1, some 0, some 1, 0⟩ : LoggerState).infoFile = some 0 ∧
      (⟨some 0, some 1, some 0, some 1, 0⟩ : LoggerState).errorFile = some 1 ∧
      (0 : Nat) ≠ 1 ∧ 0 ∈ (⟨[0, 1], 2, false⟩ : FSWorld).openFiles ∧
      1 ∈ (⟨[0, 1], 2, false⟩ : FSWorld).openFiles ∧
      (⟨[0, 1], 2, false⟩ : FSWorld).openFiles.Nodup) ∧
      ((bwClose ⟨8, levelError, "ab".data, [], [], false, true, false, false⟩).1 = false ∧
        bwClose (bwClose ⟨8, levelError, "ab".data, [], [], false, true, false,
              false⟩).2.2 =
          (false, none,
            (bwClose ⟨8, levelError, "ab".data, [], [], false, true, false, false⟩).2.2) ∧
        (loggerClose ⟨some 0, some 1, some 0, some 1, 0⟩ ⟨[0, 1], 2, false⟩).1 = none ∧
        (loggerClose ⟨some 0, some 1, some 0, some 1, 0⟩
            (loggerClose ⟨some 0, some 1, some 0, some 1, 0⟩
              ⟨[0, 1], 2, false⟩).2).1.isSome = true) :=
  ⟨⟨by decide, rfl, rfl, by decide, by decide, by decide, by decide⟩,
    close_idempotency ⟨8, levelError, "ab".data, [], [], false, true, false, false⟩
      ⟨some 0, some 1, some 0, some 1, 0⟩ ⟨[0, 1], 2, false⟩ 0 1 (by decide)
      (fun _ => rfl) rfl rfl (by decide) (by decide) (by decide) (by decide)⟩

theorem fileOpen_fail (w : FSWorld) (h : w.openFail = true) : fileOpen w = (none, w) := by
  simp only [fileOpen, if_pos h]

theorem fileCloseE_openFail (w : FSWorld) (k : Nat) :
    ((fileCloseE w k).2).openFail = w.openFail := by
  simp only [fileCloseE]
  by_cases hk : k ∈ w.openFiles
  · rw [if_pos hk]
  · rw [if_neg hk]

theorem fileCloseE_not_mem (w : FSWorld) (k a : Nat) (h : a ∉ w.openFiles) :
    a ∉ ((fileCloseE w k).2).openFiles := by
  simp only [fileCloseE]
  by_cases hk : k ∈ w.openFiles
  · rw [if_pos hk]
    show a ∉ w.openFiles.erase k
    exact fun hm => h (List.mem_of_mem_erase hm)
  · rw [if_neg hk]
    exact h

theorem fileCloseE_self_not_mem (w : FSWorld) (k : Nat) (hnd : w.openFiles.Nodup) :
    k ∉ ((fileCloseE w k).2).openFiles := by
  simp only [fileCloseE]
  by_cases hk : k ∈ w.openFiles
  · rw [if_pos hk]
    show k ∉ w.openFiles.erase k
    intro hm
    exact ((List.Nodup.mem_erase_iff hnd).mp hm).1 rfl
  · rw [if_neg hk]
    exact hk

/-- C6 counterexample: the claim says that after a failed rotation the
logger keeps writing to the prior day's files, but initLoggers closes the
previous handles before attempting the opens, so after the failed RotateNow
the handler's destination handle is closed and the write fails. -/
theorem rotate_fail_stale_handle_cx :
    (rotateNow ⟨some 0, some 1, some 0, some 1, 0⟩ ⟨[0, 1], 2, true⟩ 1).1.isSome = true ∧
      writeToInfoDest (rotateNow ⟨some 0, some 1, some 0, some 1, 0⟩ ⟨[0, 1], 2, true⟩ 1).2.1
        (rotateNow ⟨some 0, some 1, some 0, some 1, 0⟩ ⟨[0, 1], 2, true⟩ 1).2.2 = false := by
  decide

/-- C6 (amended: the rotation failure is surfaced as an error and the
handlers are left referencing the previous handles, but those handles were
already closed at the start of the reinitialization and the stored info
handle field was overwritten with nil, so subsequent log calls fail to
deliver bytes until a rotation succeeds). -/
theorem rotate_fail_behavior (l : LoggerState) (w : FSWorld) (i : Nat) (d : Int)
    (hof : w.openFail = true) (hi : l.infoFile = some i) (hd : l.infoDest = some i)
    (hnd : w.openFiles.Nodup) :
    (rotateNow l w d).1.isSome = true ∧
      (rotateNow l w d).2.1.infoDest = l.infoDest ∧
      (rotateNow l w d).2.1.infoFile = none ∧
      writeToInfoDest (rotateNow l w d).2.1 (rotateNow l w d).2.2 = false := by
  have hmi : i ∉ ((fileCloseE w i).2).openFiles := fileCloseE_self_not_mem w i hnd
  cases hj : l.errorFile with
  | none =>
    have hrw : rotateNow l w d = (some "failed to open info log file",
        { l with infoFile := none }, (fileCloseE w i).2) := by
      simp only [rotateNow, initLoggers, hi, hj]
      rw [fileOpen_fail ((fileCloseE w i).2) (by rw [fileCloseE_openFail]; exact hof)]
    rw [hrw]
    refine ⟨rfl, rfl, rfl, ?_⟩
    simp [writeToInfoDest, hd, hmi]
  | some jj =>
    have hmi2 : i ∉ ((fileCloseE ((fileCloseE w i).2) jj).2).openFiles :=
      fileCloseE_not_mem _ jj i hmi
    have hrw : rotateNow l w d = (some "failed to open info log file",
        { l with infoFile := none }, (fileCloseE ((fileCloseE w i).2) jj).2) := by
      simp only [rotateNow, initLoggers, hi, hj]
      rw [fileOpen_fail ((fileCloseE ((fileCloseE w i).2) jj).2)
        (by rw [fileCloseE_openFail, fileCloseE_openFail]; exact hof)]
    rw [hrw]
    refine ⟨rfl, rfl, rfl, ?_⟩
    simp [writeToInfoDest, hd, hmi2]

/-- C6 witness: two open handles, an opening failure, a forced rotation. -/
theorem rotate_fail_behavior_witness :
    ((⟨[0, 1], 2, true⟩ : FSWorld).openFail = true ∧
      (⟨some 0, some 1, some 0, some 1, 0⟩ : LoggerState).infoFile = some 0 ∧
      (⟨some 0, some 1, some 0, some 1, 0⟩ : LoggerState).infoDest = some 0 ∧
      (⟨[0, 1], 2, true⟩ : FSWorld).openFiles.Nodup) ∧
      ((rotateNow ⟨some 0, some 1, some 0, some 1, 0⟩ ⟨[0, 1], 2, true⟩ 1).1.isSome =
          true ∧
        (rotateNow ⟨some 0, some 1, some 0, some 1, 0⟩ ⟨[0, 1], 2, true⟩ 1).2.1.infoDest =
          (⟨some 0, some 1, some 0, some 1, 0⟩ : LoggerState).infoDest ∧
        (rotateNow ⟨some 0, some 1, some 0, some 1, 0⟩ ⟨[0, 1], 2, true⟩ 1).2.1.infoFile =
          none ∧
        writeToInfoDest
            (rotateNow ⟨some 0, some 1, some 0, some 1, 0⟩ ⟨[0, 1], 2, true⟩ 1).2.1
            (rotateNow ⟨some 0, some 1, some 0, some 1, 0⟩ ⟨[0, 1], 2, true⟩ 1).2.2 =
          false) :=
  ⟨⟨rfl, rfl, rfl, by decide⟩,
    rotate_fail_behavior ⟨some 0, some 1, some 0, some 1, 0⟩ ⟨[0, 1], 2, true⟩ 0 1 rfl rfl
      rfl (by decide)⟩

/-- C1 counterexample: the claim says every admitted record is written to
the all-levels file, but a WARN record is filtered out of the all-levels
file by levelFilterWriter and lands only in the error file. -/
theorem warn_record_not_in_info_file_cx :
    (logDispatch levelWarn "time=1 level=WARN msg=disk".data ⟨[], [], [], []⟩).infoFileData =
        [] ∧
      (logDispatch levelWarn "time=1 level=WARN msg=disk".data
          ⟨[], [], [], []⟩).errorFileData = "time=1 level=WARN msg=disk".data := by
  decide

/-- C1 (amended: admitted Debug/Info records are appended to the all-levels
file; Warn/Error records are mirrored to the error file and to the console
stream, but levelFilterWriter filters them out of the all-levels file). -/
theorem dual_stream_routing (s : Sinks) (p q : Str) (lv lw : Int)
    (hlv : lv < levelWarn) (hp : hasWarnMarker p = false)
    (hlw : levelWarn ≤ lw) (hq : hasWarnMarker q = true) :
    (logDispatch lv p s).infoFileData = s.infoFileData ++ p ∧
      (logDispatch lv p s).errorFileData = s.errorFileData ∧
      (logDispatch lw q s).infoFileData = s.infoFileData ∧
      (logDispatch lw q s).errorFileData = s.errorFileData ++ q ∧
      (logDispatch lw q s).stdoutData = s.stdoutData ++ q := by
  have h1 : ¬(lv ≥ levelWarn) := by omega
  refine ⟨?_, ?_, ?_, ?_, ?_⟩ <;>
    simp [logDispatch, h1, hlw, writeInfoStream, writeErrorStream, levelFilterWrite, hp, hq]

/-- C1 witness: a text-encoded INFO record reaches the all-levels file only;
a text-encoded ERROR record reaches the error file and stdout but not the
all-levels file. -/
theorem dual_stream_routing_witness :
    ((0 : Int) < levelWarn ∧ hasWarnMarker "time=1 level=INFO msg=a".data = false ∧
      levelWarn ≤ (8 : Int) ∧ hasWarnMarker "time=2 level=ERROR msg=b".data = true) ∧
      ((logDispatch 0 "time=1 level=INFO msg=a".data ⟨[], [], [], []⟩).infoFileData =
          (⟨[], [], [], []⟩ : Sinks).infoFileData ++ "time=1 level=INFO msg=a".data ∧
        (logDispatch 0 "time=1 level=INFO msg=a".data ⟨[], [], [], []⟩).errorFileData =
          (⟨[], [], [], []⟩ : Sinks).errorFileData ∧
        (logDispatch 8 "time=2 level=ERROR msg=b".data ⟨[], [], [], []⟩).infoFileData =
          (⟨[], [], [], []⟩ : Sinks).infoFileData ∧
        (logDispatch 8 "time=2 level=ERROR msg=b".data ⟨[], [], [], []⟩).errorFileData =
          (⟨[], [], [], []⟩ : Sinks).errorFileData ++ "time=2 level=ERROR msg=b".data ∧
        (logDispatch 8 "time=2 level=ERROR msg=b".data ⟨[], [], [], []⟩).stdoutData =
          (⟨[], [], [], []⟩ : Sinks).stdoutData ++ "time=2 level=ERROR msg=b".data) :=
  ⟨⟨by decide, by decide, by decide, by decide⟩,
    dual_stream_routing ⟨[], [], [], []⟩ "time=1 level=INFO msg=a".data
      "time=2 level=ERROR msg=b".data 0 8 (by decide) (by decide) (by decide) (by decide)⟩

theorem filterNonEmpty_eq (cfg : FilterConfig) (attrs : List Attr) :
    filterNonEmpty cfg attrs =
      (attrs.map (applyFiltersToAttr cfg)).filter
        (fun a => decide (valueToString a.val ≠ [])) := by
  induction attrs with
  | nil => rfl
  | cons a rest ih =>
    simp only [filterNonEmpty, List.map_cons, List.filter_cons]
    by_cases hv : valueToString (applyFiltersToAttr cfg a).val = []
    · simp [hv, ih]
    · simp [hv, ih]

/-- C9 counterexample: the claim says no attribute with an empty resulting
value appears among an admitted record's attributes, but with no field or
regex filters registered applyFieldFilters returns the attribute list
unchanged, so an admitted record keeps an attribute whose value is the empty
string. -/
theorem empty_value_kept_cx :
    (handleRecord ⟨[], [], [], fun _ => none⟩ levelInfo "m".data
        [⟨"k".data, GoValue.str []⟩] 0).1 = some [⟨"k".data, GoValue.str []⟩] := rfl

/-- C9 (amended: provided at least one field filter or regex filter is
registered — otherwise the early return keeps the attribute list, empty
values included): each attribute is transformed by its per-key filter and
then by every regex rule in registration order on string values, and no
attribute whose resulting value is the empty string survives. -/
theorem field_filtering_semantics (cfg : FilterConfig) (attrs : List Attr)
    (h : (cfg.fieldFilters.isEmpty && cfg.regexFilters.isEmpty) = false) :
    applyFieldFilters cfg attrs = claimApplyFieldFilters cfg attrs ∧
      ∀ a ∈ applyFieldFilters cfg attrs, valueToString a.val ≠ [] := by
  have h1 : applyFieldFilters cfg attrs = claimApplyFieldFilters cfg attrs := by
    simp only [applyFieldFilters, h, Bool.false_eq_true, if_false]
    rw [filterNonEmpty_eq]
    rfl
  refine ⟨h1, ?_⟩
  intro a ha
  rw [h1, claimApplyFieldFilters] at ha
  have hm := List.mem_filter.mp ha
  exact of_decide_eq_true hm.2

/-- C9 witness: a mask filter and a redaction filter registered; the masked
attribute survives with the mask value, the redacted attribute (empty
value) is dropped. -/
theorem field_filtering_semantics_witness :
    (((⟨[], [("password".data, MaskFieldFilter "***".data),
            ("secret".data, RedactFieldFilter)], [],
          fun _ => none⟩ : FilterConfig).fieldFilters.isEmpty &&
        (⟨[], [("password".data, MaskFieldFilter "***".data),
            ("secret".data, RedactFieldFilter)], [],
          fun _ => none⟩ : FilterConfig).regexFilters.isEmpty) = false) ∧
      (applyFieldFilters
          ⟨[], [("password".data, MaskFieldFilter "***".data),
              ("secret".data, RedactFieldFilter)], [], fun _ => none⟩
          [⟨"user".data, GoValue.str "john".data⟩,
            ⟨"password".data, GoValue.str "hunter2".data⟩,
            ⟨"secret".data, GoValue.str "xyz".data⟩] =
        claimApplyFieldFilters
          ⟨[], [("password".data, MaskFieldFilter "***".data),
              ("secret".data, RedactFieldFilter)], [], fun _ => none⟩
          [⟨"user".data, GoValue.str "john".data⟩,
            ⟨"password".data, GoValue.str "hunter2".data⟩,
            ⟨"secret".data, GoValue.str "xyz".data⟩] ∧
        ∀ a ∈ applyFieldFilters
            ⟨[], [("password".data, MaskFieldFilter "***".data),
                ("secret".data, RedactFieldFilter)], [], fun _ => none⟩
            [⟨"user".data, GoValue.str "john".data⟩,
              ⟨"password".data, GoValue.str "hunter2".data⟩,
              ⟨"secret".data, GoValue.str "xyz".data⟩],
          valueToString a.val ≠ []) :=
  ⟨rfl,
    field_filtering_semantics
      ⟨[], [("password".data, MaskFieldFilter "***".data),
          ("secret".data, RedactFieldFilter)], [], fun _ => none⟩
      [⟨"user".data, GoValue.str "john".data⟩,
        ⟨"password".data, GoValue.str "hunter2".data⟩,
        ⟨"secret".data, GoValue.str "xyz".data⟩] rfl⟩

end ISlogger

